import Mathlib

/-!
Verification of the process-backed RPC client/manager of the summariser
repository (`playwright_mcp_client.py`, `utils/mcp_manager.py`).

The development shallowly embeds the relevant source functions:

* the framed message reader `SimpleMCPClient._read_complete_response`
  (byte chunks are modelled post-decode as `List Char`);
* the JSON-RPC request construction `SimpleMCPClient._create_request`
  together with the `json.dumps` serialization it relies on;
* the response unwrapping of `SimpleMCPClient.call_tool`;
* the lifecycle operations `MCPManager.start`, `MCPManager.cleanup`,
  `MCPManager.list_tools`.

JSON values are modelled by the inductive `Json`; `json.loads` is modelled
by `parseJson` on the protocol subset actually exchanged (null, booleans,
integer numbers, strings with escapes, arrays, objects).  Fractional and
exponent number forms are not modelled: no message of the protocol carries
them.  Python `str()` / `repr()` of decoded JSON values are modelled by
`pyStr` / `pyRepr`.
-/

/-- The whitespace characters recognised by JSON and by the `str.strip`
calls of the client (space, tab, newline, carriage return). -/
def isWS (c : Char) : Bool :=
  c = ' ' || c = '\t' || c = '\n' || c = '\r'

/-- Model of Python `str.strip()`: drop whitespace from both ends. -/
def pyStrip (l : List Char) : List Char :=
  ((l.dropWhile isWS).reverse.dropWhile isWS).reverse

/-- Model of Python `buffer.split('\n')`: split a character list at every
newline; a trailing newline yields a final empty piece, and the result is
never empty. -/
def splitNL : List Char → List (List Char)
  | [] => [[]]
  | c :: cs =>
    if c = '\n' then [] :: splitNL cs
    else
      match splitNL cs with
      | l :: ls => (c :: l) :: ls
      | [] => [[c]]

/-- JSON values, as decoded by `json.loads` on the wire protocol subset. -/
inductive Json where
  | null : Json
  | bool (b : Bool) : Json
  | num (n : Int) : Json
  | str (s : String) : Json
  | arr (xs : List Json) : Json
  | obj (fields : List (String × Json)) : Json
deriving Repr

/-- Hex digit value of a character, for `\uXXXX` string escapes. -/
def parseHexDigit (c : Char) : Option Nat :=
  if '0' ≤ c ∧ c ≤ '9' then some (c.toNat - 48)
  else if 'a' ≤ c ∧ c ≤ 'f' then some (c.toNat - 87)
  else if 'A' ≤ c ∧ c ≤ 'F' then some (c.toNat - 55)
  else none

/-- Unescaped form of a single-character JSON string escape. -/
def escChar (e : Char) : Option Char :=
  if e = '"' then some '"'
  else if e = '\\' then some '\\'
  else if e = '/' then some '/'
  else if e = 'n' then some '\n'
  else if e = 't' then some '\t'
  else if e = 'r' then some '\r'
  else if e = 'b' then some (Char.ofNat 8)
  else if e = 'f' then some (Char.ofNat 12)
  else none

/-- Parse the body of a JSON string literal (the opening quote already
consumed), returning the decoded characters and the input after the
closing quote.  Surrogate-pair recombination of `\uXXXX` escapes is not
modelled (no protocol message uses them). -/
def parseStrBody : List Char → Option (List Char × List Char)
  | [] => none
  | c :: rest =>
    if c = '"' then some ([], rest)
    else if c = '\\' then
      match rest with
      | [] => none
      | e :: rest2 =>
        if e = 'u' then
          match rest2 with
          | h1 :: h2 :: h3 :: h4 :: rest3 =>
            match parseHexDigit h1, parseHexDigit h2, parseHexDigit h3, parseHexDigit h4 with
            | some a, some b, some c2, some d =>
              match parseStrBody rest3 with
              | some (s, r) => some (Char.ofNat (((a * 16 + b) * 16 + c2) * 16 + d) :: s, r)
              | none => none
            | _, _, _, _ => none
          | _ => none
        else
          match escChar e with
          | some ec =>
            match parseStrBody rest2 with
            | some (s, r) => some (ec :: s, r)
            | none => none
          | none => none
    else if c.toNat < 32 then none
    else
      match parseStrBody rest with
      | some (s, r) => some (c :: s, r)
      | none => none

/-- Parse a JSON number (integral forms only; see module comment). -/
def parseNum (cs : List Char) : Option (Json × List Char) :=
  let p := match cs with
    | '-' :: r => (true, r)
    | _ => (false, cs)
  let digits := p.2.takeWhile Char.isDigit
  let rest := p.2.dropWhile Char.isDigit
  if digits = [] then none
  else if digits.length > 1 ∧ digits.headD '0' = '0' then none
  else
    let n : Nat := digits.foldl (fun acc c => acc * 10 + (c.toNat - 48)) 0
    some (Json.num (if p.1 then -(n : Int) else (n : Int)), rest)

/-- Skip JSON whitespace. -/
def skipWS (cs : List Char) : List Char := cs.dropWhile isWS

/-- Consume an expected literal keyword tail (the characters of the first
argument, in order) from the input, returning the remainder. -/
def eatKeyword : List Char → List Char → Option (List Char)
  | [], cs => some cs
  | k :: ks, c :: cs => if c = k then eatKeyword ks cs else none
  | _ :: _, [] => none

mutual

/-- Recursive-descent JSON value parser (fuel-indexed), modelling
`json.loads` on the protocol subset. -/
def parseVal : Nat → List Char → Option (Json × List Char)
  | 0, _ => none
  | Nat.succ fuel, cs =>
    match skipWS cs with
    | 'n' :: rest =>
      (match eatKeyword "ull".data rest with
       | some r => some (Json.null, r)
       | none => none)
    | 't' :: rest =>
      (match eatKeyword "rue".data rest with
       | some r => some (Json.bool true, r)
       | none => none)
    | 'f' :: rest =>
      (match eatKeyword "alse".data rest with
       | some r => some (Json.bool false, r)
       | none => none)
    | '"' :: rest =>
      (match parseStrBody rest with
       | some (s, r) => some (Json.str (String.mk s), r)
       | none => none)
    | '[' :: rest =>
      (match skipWS rest with
       | ']' :: r => some (Json.arr [], r)
       | _ =>
         match parseItems fuel rest with
         | some (xs, r) => some (Json.arr xs, r)
         | none => none)
    | '\x7b' :: rest =>
      (match skipWS rest with
       | '\x7d' :: r => some (Json.obj [], r)
       | _ =>
         match parseFields fuel rest with
         | some (fs, r) => some (Json.obj fs, r)
         | none => none)
    | c :: rest =>
      if c = '-' ∨ c.isDigit then parseNum (c :: rest) else none
    | [] => none

/-- Parse the comma-separated items of a non-empty JSON array, up to and
including the closing bracket. -/
def parseItems : Nat → List Char → Option (List Json × List Char)
  | 0, _ => none
  | Nat.succ fuel, cs =>
    match parseVal fuel cs with
    | none => none
    | some (v, r) =>
      match skipWS r with
      | ',' :: r2 =>
        (match parseItems fuel r2 with
         | some (xs, r3) => some (v :: xs, r3)
         | none => none)
      | ']' :: r2 => some ([v], r2)
      | _ => none

/-- Parse the comma-separated fields of a non-empty JSON object, up to and
including the closing brace. -/
def parseFields : Nat → List Char → Option (List (String × Json) × List Char)
  | 0, _ => none
  | Nat.succ fuel, cs =>
    match skipWS cs with
    | '"' :: rest =>
      (match parseStrBody rest with
       | none => none
       | some (k, r) =>
         match skipWS r with
         | ':' :: r2 =>
           (match parseVal fuel r2 with
            | none => none
            | some (v, r3) =>
              match skipWS r3 with
              | ',' :: r4 =>
                (match parseFields fuel r4 with
                 | some (fs, r5) => some ((String.mk k, v) :: fs, r5)
                 | none => none)
              | '\x7d' :: r4 => some ([(String.mk k, v)], r4)
              | _ => none)
         | _ => none)
    | _ => none

end

/-- Model of `json.loads` on a full text: parse one value and require
that nothing but whitespace remains. -/
def parseJson (cs : List Char) : Option Json :=
  match parseVal (cs.length + 1) cs with
  | some (v, r) => if skipWS r = [] then some v else none
  | none => none

/-! ## The framed message reader

`SimpleMCPClient._read_complete_response` loops: check process liveness
(`poll`), read a chunk from the child's stdout, append it to a local
buffer, split the buffer at newlines, scan the pieces in order and return
the first stripped piece that parses as complete JSON; otherwise keep only
the last piece as the new buffer, breaking out (and returning the stripped
buffer) once the buffer exceeds 10000 characters, the process is seen
dead, or the stream yields no data.

A read event is what one loop iteration observes: either the liveness
probe reports the child dead, or `stdout.read` returns a (possibly empty)
chunk. -/

/-- One observation of the reader loop: the liveness probe fires, or a
chunk of decoded characters is returned by `stdout.read` (an empty chunk
meaning end-of-stream). -/
inductive ReadEv where
  | dead : ReadEv
  | chunk (data : List Char) : ReadEv
deriving Repr, DecidableEq

/-- The scan `for line in lines: line = line.strip(); if line and
self._is_complete_json(line): return line` — the first stripped,
non-empty, JSON-parseable piece. -/
def firstJsonLine : List (List Char) → Option (List Char)
  | [] => none
  | l :: ls =>
    let s := pyStrip l
    if s ≠ [] ∧ (parseJson s).isSome then some s else firstJsonLine ls

/-- Embedding of `SimpleMCPClient._read_complete_response`.  Returns the
text the call yields together with the read events not yet consumed from
the stream (data already read into the local buffer but not returned is
discarded with the buffer — the source keeps no state across calls). -/
def readRespAux : List ReadEv → List Char → List Char × List ReadEv
  | [], buf => (pyStrip buf, [])
  | ReadEv.dead :: rest, buf => (pyStrip buf, ReadEv.dead :: rest)
  | ReadEv.chunk [] :: rest, buf => (pyStrip buf, ReadEv.chunk [] :: rest)
  | ReadEv.chunk (c :: cs) :: rest, buf =>
    let lines := splitNL (buf ++ c :: cs)
    match firstJsonLine lines with
    | some l => (l, rest)
    | none =>
      let b2 := lines.getLastD []
      if b2.length > 10000 then (pyStrip b2, rest)
      else readRespAux rest b2

/-- A fresh call to `_read_complete_response` (local buffer starts empty). -/
def readResp (evs : List ReadEv) : List Char :=
  (readRespAux evs []).1

/-- The texts yielded by `n` successive calls to
`_read_complete_response` against one stream of read events — the session
performs one such call per outstanding request. -/
def drainCalls : Nat → List ReadEv → List (List Char)
  | 0, _ => []
  | Nat.succ n, evs =>
    let p := readRespAux evs []
    p.1 :: drainCalls n p.2

/-! ## Serialization (`json.dumps` and Python `str`/`repr`) -/

/-- `", ".join`-style concatenation used by the serializers. -/
def joinSep (sep : String) : List String → String
  | [] => ""
  | [x] => x
  | x :: y :: xs => x ++ sep ++ joinSep sep (y :: xs)

/-- Concatenation of a list of strings. -/
def concatAll : List String → String
  | [] => ""
  | x :: xs => x ++ concatAll xs

/-- The sixteen lowercase hex digit characters. -/
def hexChars : List Char := "0123456789abcdef".data

/-- Lowercase hex digit of `n % 16`. -/
def hexDigitChar (n : Nat) : Char := hexChars.getD (n % 16) '0'

/-- Four-digit lowercase hex rendering, as in `\uXXXX` escapes. -/
def hex4 (n : Nat) : String :=
  String.mk [hexDigitChar (n / 4096), hexDigitChar (n / 256), hexDigitChar (n / 16), hexDigitChar n]

/-- Escaping of one character by `json.dumps` (default `ensure_ascii`):
quote, backslash and control characters are escaped, non-ASCII characters
become `\uXXXX` (a surrogate pair beyond the basic plane). -/
def jsonEscChar (c : Char) : String :=
  if c = '"' then "\\\""
  else if c = '\\' then "\\\\"
  else if c = '\n' then "\\n"
  else if c = '\t' then "\\t"
  else if c = '\r' then "\\r"
  else if c = Char.ofNat 8 then "\\b"
  else if c = Char.ofNat 12 then "\\f"
  else if c.toNat < 32 then "\\u" ++ hex4 c.toNat
  else if c.toNat < 128 then String.mk [c]
  else if c.toNat < 65536 then "\\u" ++ hex4 c.toNat
  else "\\u" ++ hex4 (55296 + (c.toNat - 65536) / 1024) ++
       "\\u" ++ hex4 (56320 + (c.toNat - 65536) % 1024)

/-- A JSON string literal as emitted by `json.dumps`. -/
def jsonQuote (s : String) : String :=
  "\"" ++ concatAll (s.data.map jsonEscChar) ++ "\""

mutual

/-- Embedding of `json.dumps` with its default separators. -/
def jsonDumps : Json → String
  | Json.null => "null"
  | Json.bool true => "true"
  | Json.bool false => "false"
  | Json.num n => toString n
  | Json.str s => jsonQuote s
  | Json.arr xs => "[" ++ joinSep ", " (dumpsItems xs) ++ "]"
  | Json.obj fs => "\x7b" ++ joinSep ", " (dumpsFields fs) ++ "\x7d"

/-- Serializations of the items of an array. -/
def dumpsItems : List Json → List String
  | [] => []
  | x :: xs => jsonDumps x :: dumpsItems xs

/-- Serializations of the fields of an object. -/
def dumpsFields : List (String × Json) → List String
  | [] => []
  | (k, v) :: fs => (jsonQuote k ++ ": " ++ jsonDumps v) :: dumpsFields fs

end

/-- The single-quote character, Python's preferred `repr` string quote. -/
def sqChar : Char := Char.ofNat 39

/-- Escaping of one character inside Python `repr` of a string with quote
character `q`. -/
def pyEscChar (q : Char) (c : Char) : String :=
  if c = '\\' then "\\\\"
  else if c = q then String.mk ['\\', q]
  else if c = '\n' then "\\n"
  else if c = '\r' then "\\r"
  else if c = '\t' then "\\t"
  else if c.toNat < 32 ∨ c.toNat = 127 then
    "\\x" ++ String.mk [hexDigitChar (c.toNat / 16), hexDigitChar c.toNat]
  else String.mk [c]

/-- Python `repr` of a string: single-quoted unless the string contains a
single quote and no double quote. -/
def pyReprStr (s : String) : String :=
  let q := if s.data.contains sqChar ∧ ¬ s.data.contains '"' then '"' else sqChar
  String.mk [q] ++ concatAll (s.data.map (pyEscChar q)) ++ String.mk [q]

mutual

/-- Python `repr` of a JSON-decoded value (`None`/`True`/`False`,
decimal integers, quoted strings, bracketed lists, braced dicts). -/
def pyRepr : Json → String
  | Json.null => "None"
  | Json.bool true => "True"
  | Json.bool false => "False"
  | Json.num n => toString n
  | Json.str s => pyReprStr s
  | Json.arr xs => "[" ++ joinSep ", " (pyReprItems xs) ++ "]"
  | Json.obj fs => "\x7b" ++ joinSep ", " (pyReprFields fs) ++ "\x7d"

/-- `repr`s of the items of a list. -/
def pyReprItems : List Json → List String
  | [] => []
  | x :: xs => pyRepr x :: pyReprItems xs

/-- `repr`s of the fields of a dict. -/
def pyReprFields : List (String × Json) → List String
  | [] => []
  | (k, v) :: fs => (pyReprStr k ++ ": " ++ pyRepr v) :: pyReprFields fs

end

/-- Python `str` of a JSON-decoded value: the string itself for strings,
`repr` otherwise. -/
def pyStr : Json → String
  | Json.str s => s
  | j => pyRepr j

/-- Lookup in a decoded JSON object with Python dict semantics: on
duplicate keys the later entry wins (as produced by `json.loads`). -/
def dget : List (String × Json) → String → Option Json
  | [], _ => none
  | (k, v) :: rest, key =>
    match dget rest key with
    | some r => some r
    | none => if k = key then some v else none

/-! ## Response unwrapping (`SimpleMCPClient.call_tool`, lines 119-139)

The source computes
`content = result.get("content", result.get("text", str(result)))`,
joins list contents with newlines (taking each dict item's `"text"` field,
the item itself otherwise), and stringifies everything else. -/

/-- The `content` value resolved from a dict `result`: the `"content"`
field if present, else the `"text"` field, else `str(result)`. -/
def contentOf (rf : List (String × Json)) : Json :=
  match dget rf "content" with
  | some c => c
  | none =>
    match dget rf "text" with
    | some t => t
    | none => Json.str (pyStr (Json.obj rf))

/-- One element of a content array inside the newline join:
`str(item.get("text", item)) if isinstance(item, dict) else str(item)`. -/
def unwrapItem : Json → String
  | Json.obj f => pyStr ((dget f "text").getD (Json.obj f))
  | x => pyStr x

/-- Rendering of the resolved content value: content arrays are joined
with newlines, anything else is stringified. -/
def contentRender : Json → String
  | Json.arr items => joinSep "\n" (items.map unwrapItem)
  | c => pyStr c

/-- Unwrapping of a parsed JSON-RPC response object by `call_tool`: an
`error` field yields the server-error string; otherwise `result`
(defaulting to `""`) is unwrapped — dict results via `contentOf` and
`contentRender`, any other result via `str`. -/
def unwrapObj (fields : List (String × Json)) : String :=
  match dget fields "error" with
  | some e => "❌ Server error: " ++ pyStr e
  | none =>
    match (dget fields "result").getD (Json.str "") with
    | Json.obj rf => contentRender (contentOf rf)
    | r => pyStr r

/-- The response-text handling of `call_tool` (lines 119-139): strip the
text, parse it as JSON, unwrap a parsed object; a JSON parse failure
returns the stripped raw text.  A parsed non-object response exercises
Python duck-typed paths outside the protocol and is left unmodelled
(`none`). -/
def callToolParse (text : List Char) : Option String :=
  match parseJson (pyStrip text) with
  | none => some (String.mk (pyStrip text))
  | some (Json.obj fields) => some (unwrapObj fields)
  | some _ => none

/-! ## Request creation (`SimpleMCPClient._create_request`) -/

/-- The mutable client state relevant to request creation: the request
counter, initially `0`. -/
structure ClientState where
  request_id : Nat
deriving Repr, DecidableEq

/-- The JSON-RPC 2.0 request object built by `_create_request` (fields in
insertion order, as serialized by `json.dumps`). -/
def requestJson (rid : Nat) (method : String) (params : Json) : Json :=
  Json.obj [("jsonrpc", Json.str "2.0"), ("id", Json.num rid),
            ("method", Json.str method), ("params", params)]

/-- Embedding of `_create_request`: increment the counter, build the
request with the new id and `params or \x7b\x7d`, serialize it followed by a
newline. -/
def createRequest (st : ClientState) (method : String) (params : Option Json) :
    ClientState × String :=
  let rid := st.request_id + 1
  (⟨rid⟩, jsonDumps (requestJson rid method (params.getD (Json.obj []))) ++ "\n")

/-- The request ids issued by a sequence of `_create_request` calls. -/
def issuedIds : ClientState → List (String × Option Json) → List Nat
  | _, [] => []
  | st, c :: rest =>
    let st2 := (createRequest st c.1 c.2).1
    st2.request_id :: issuedIds st2 rest

/-! ## Outer failure handling of `call_tool` (lines 141-158)

The awaited read either yields a response text, raises
`asyncio.TimeoutError`, or raises some other exception — in which case the
`except` block distinguishes a dead child (`poll() is not None`) from a
live one.  Every branch returns a string to the caller.  The interpolated
rendering of the timeout value and of the exception message are taken as
parameters. -/

/-- How the awaited response read of `call_tool` ended. -/
inductive CallOutcome where
  | timeout : CallOutcome
  | exn (processDead : Bool) : CallOutcome
  | response (text : List Char) : CallOutcome

/-- The timeout string returned by `call_tool`, with the rendered timeout
value interpolated. -/
def timeoutMsg (tstr : String) : String :=
  "❌ Timeout: Server didn\x27t respond within " ++ tstr ++ " seconds"

/-- Embedding of the `try`/`except` structure of `call_tool` around the
response read: timeouts and exceptions are converted to caller-visible
strings, response texts are unwrapped via `callToolParse`. -/
def callToolResult (tstr emsg : String) : CallOutcome → Option String
  | CallOutcome.timeout => some (timeoutMsg tstr)
  | CallOutcome.exn dead =>
    some (if dead then "❌ Server process died unexpectedly"
          else "❌ Error calling tool: " ++ emsg)
  | CallOutcome.response t => callToolParse t

/-! ## The manager lifecycle (`utils/mcp_manager.py`)

`MCPManager.start` starts the event-loop thread, spawns the child, checks
it survived a grace period, initializes the client and discovers the
tools; `cleanup` terminates the child, stops the loop and clears every
reference.  The environment a `start` run meets (did the spawn raise, did
the child survive, did the handshake succeed, what did discovery return)
is made explicit; side effects on the child process are recorded as
supervisor actions. -/

/-- A supervisor action on the child process observable from outside. -/
inductive SAction where
  | spawn : SAction
  | terminate : SAction
  | stopLoop : SAction
deriving Repr, DecidableEq

/-- The manager fields relevant to lifecycle claims.  `mcp_process` is
`none` when no handle is held, `some alive` when a handle is held whose
liveness probe returns `alive`. -/
structure Manager where
  loopRunning : Bool
  mcp_process : Option Bool
  mcp_client : Bool
  available_tools : List (String × Json)
deriving Repr

/-- A freshly constructed `MCPManager`. -/
def initialManager : Manager :=
  { loopRunning := false, mcp_process := none, mcp_client := false, available_tools := [] }

/-- The `Terminated` session state of the specification: no child handle,
no client, no event loop, empty catalog. -/
def terminatedState (m : Manager) : Prop :=
  m.mcp_process = none ∧ m.mcp_client = false ∧
  m.loopRunning = false ∧ m.available_tools = []

/-- The environment one run of `MCPManager.start` meets: whether `Popen`
succeeds, whether the child is still alive after the grace sleep, whether
`initialize()` returns truthily, and the tool mapping `list_tools()`
yields (`[]` for a falsy result — `None` or an empty dict). -/
structure StartEnv where
  spawnOk : Bool
  survivesGrace : Bool
  initOk : Bool
  discovered : List (String × Json)
deriving Repr

/-- Embedding of `MCPManager.start` (lines 54-98): returns the boolean
result, the manager state afterwards, and the supervisor actions
performed.  The loop thread is started first; a `Popen` failure is caught
and returns `False`; a child dead after the grace sleep returns `False`;
`_initialize_client` assigns the client and returns `False` on handshake
failure; a falsy `_discover_tools` result only logs a warning and `start`
still returns `True` with the catalog untouched. -/
def startRun (m : Manager) (env : StartEnv) : Bool × Manager × List SAction :=
  let m1 := { m with loopRunning := true }
  if ¬ env.spawnOk then (false, m1, [])
  else
    let m2 := { m1 with mcp_process := some env.survivesGrace }
    if ¬ env.survivesGrace then (false, m2, [SAction.spawn])
    else
      let m3 := { m2 with mcp_client := true }
      if ¬ env.initOk then (false, m3, [SAction.spawn])
      else if env.discovered.isEmpty then (true, m3, [SAction.spawn])
      else (true, { m3 with available_tools := env.discovered }, [SAction.spawn])

/-- Embedding of `MCPManager.cleanup` (lines 198-231): terminate the
child if a handle is held (all exceptions swallowed; escalation to `kill`
is part of the one termination attempt), stop the event loop if present,
then clear the process handle, client, loop and tool catalog. -/
def cleanupRun (m : Manager) : Manager × List SAction :=
  let acts := (match m.mcp_process with
    | some _ => [SAction.terminate]
    | none => []) ++ (if m.loopRunning then [SAction.stopLoop] else [])
  ({ loopRunning := false, mcp_process := none, mcp_client := false,
     available_tools := [] }, acts)

/-- Embedding of `MCPManager.is_healthy`: process handle held and alive,
client created, event loop present. -/
def isHealthy (m : Manager) : Bool :=
  m.mcp_process = some true ∧ m.mcp_client ∧ m.loopRunning

/-! ## `list_tools` and the catalog copy

`MCPManager.list_tools` returns `self.available_tools.copy()`.  To state
that the copy is independent, Python dict identity is modelled by a store
mapping addresses to dict contents; `copy()` allocates a fresh address
holding the same contents, and a mutation writes through one address. -/

/-- A store of Python dict objects: contents per address, plus the next
fresh address. -/
structure ToolStore where
  mem : Nat → List (String × Json)
  next : Nat

/-- Embedding of `MCPManager.list_tools` with the manager's catalog at
address `mgr`: allocate a fresh dict holding a copy of the contents. -/
def listToolsRun (s : ToolStore) (mgr : Nat) : Nat × ToolStore :=
  (s.next, ⟨fun a => if a = s.next then s.mem mgr else s.mem a, s.next + 1⟩)

/-- An arbitrary in-place mutation of the dict at address `addr`
(item assignment, deletion, `update`, `clear`, ...). -/
def mutateAt (s : ToolStore) (addr : Nat)
    (f : List (String × Json) → List (String × Json)) : ToolStore :=
  ⟨fun a => if a = addr then f (s.mem addr) else s.mem a, s.next⟩

/-- A sequence of in-place mutations, all through address `addr`. -/
def mutateSeq (s : ToolStore) (addr : Nat)
    (fs : List (List (String × Json) → List (String × Json))) : ToolStore :=
  fs.foldl (fun st f => mutateAt st addr f) s

/-- The availability check of `MCPManager.call_tool`
(`tool_name not in self.available_tools`, negated), against the manager's
catalog at address `mgr`. -/
def toolAvailable (s : ToolStore) (mgr : Nat) (name : String) : Bool :=
  (dget (s.mem mgr) name).isSome

/-- The string contains no newline character. -/
abbrev noNL (s : String) : Prop := '\n' ∉ s.data

/-! ## Sanity checks on the embedding -/

example : parseJson "\x7b\"id\": 1\x7d".data =
    some (Json.obj [("id", Json.num 1)]) := by rfl

example : parseJson "\x7b\"result\": \"plain\"\x7d".data =
    some (Json.obj [("result", Json.str "plain")]) := by rfl

example : parseJson "xxxx".data = none := by rfl

example : jsonDumps (Json.obj [("id", Json.num 3), ("params", Json.obj [])]) =
    "\x7b\"id\": 3, \"params\": \x7b\x7d\x7d" := by rfl

example : issuedIds ⟨0⟩ [("initialize", none), ("tools/list", some (Json.obj [])),
    ("tools/call", none)] = [1, 2, 3] := by rfl

example : (createRequest ⟨0⟩ "initialize" none).2 =
    "\x7b\"jsonrpc\": \"2.0\", \"id\": 1, \"method\": \"initialize\", \"params\": \x7b\x7d\x7d\n" := by
  rfl

/-! ## Helper lemmas on the framer -/

theorem splitNL_append_nl (s t : List Char) (h : '\n' ∉ s) :
    splitNL (s ++ '\n' :: t) = s :: splitNL t := by
  induction s with
  | nil => simp [splitNL]
  | cons c cs ih =>
    have hc : ¬ c = '\n' := fun he => h (he ▸ List.mem_cons_self c cs)
    have hcs : '\n' ∉ cs := fun hm => h (List.mem_cons_of_mem c hm)
    simp only [List.cons_append, splitNL, if_neg hc, List.append_eq]
    rw [ih hcs]

theorem splitNL_no_nl (s : List Char) (h : '\n' ∉ s) : splitNL s = [s] := by
  induction s with
  | nil => rfl
  | cons c cs ih =>
    have hc : ¬ c = '\n' := fun he => h (he ▸ List.mem_cons_self c cs)
    have hcs : '\n' ∉ cs := fun hm => h (List.mem_cons_of_mem c hm)
    simp only [splitNL, if_neg hc, ih hcs]

theorem dropWhile_replicate_of_neg (p : Char → Bool) (n : Nat) (a : Char) (h : p a = false) :
    List.dropWhile p (List.replicate n a) = List.replicate n a := by
  cases n with
  | zero => rfl
  | succ k => simp [List.replicate_succ, List.dropWhile_cons, h]

theorem pyStrip_replicate_x (n : Nat) :
    pyStrip (List.replicate n 'x') = List.replicate n 'x' := by
  have h : isWS 'x' = false := by decide
  simp [pyStrip, dropWhile_replicate_of_neg _ _ _ h, List.reverse_replicate]

/-- The reader never parses a line of `x` characters (first character is
not the start of any JSON value). -/
theorem parseVal_x (fuel : Nat) (rest : List Char) :
    parseVal fuel ('x' :: rest) = none := by
  cases fuel with
  | zero => rfl
  | succ f =>
    have hws : skipWS ('x' :: rest) = 'x' :: rest := rfl
    rw [parseVal, hws]
    split <;> simp_all
    rename_i heq
    obtain ⟨h1, h2⟩ := heq
    subst h1
    subst h2
    intro h
    rcases h with h | h <;> exact absurd h (by decide)

theorem parseJson_replicate_x (n : Nat) (h : n ≠ 0) :
    parseJson (List.replicate n 'x') = none := by
  cases n with
  | zero => exact absurd rfl h
  | succ k =>
    rw [parseJson, List.replicate_succ, parseVal_x]

/-! ## Helper lemmas on request ids and the catalog store -/

theorem issuedIds_eq_range' :
    ∀ (calls : List (String × Option Json)) (k : Nat),
      issuedIds ⟨k⟩ calls = List.range' (k + 1) calls.length
  | [], k => by simp [issuedIds]
  | c :: rest, k => by
    rw [issuedIds, List.length_cons, List.range'_succ]
    exact congrArg _ (issuedIds_eq_range' rest (k + 1))

theorem mutateSeq_mem_ne (addr a : Nat) (hne : a ≠ addr) :
    ∀ (fs : List (List (String × Json) → List (String × Json))) (st : ToolStore),
      (mutateSeq st addr fs).mem a = st.mem a
  | [], _ => rfl
  | f :: fs, st => by
    rw [mutateSeq, List.foldl_cons]
    have h1 : (mutateSeq (mutateAt st addr f) addr fs).mem a = (mutateAt st addr f).mem a :=
      mutateSeq_mem_ne addr a hne fs (mutateAt st addr f)
    rw [mutateSeq] at h1
    rw [h1]
    simp [mutateAt, hne]

/-! ## Helper lemmas: serialized requests contain no newline -/

theorem string_data_append (a b : String) : (a ++ b).data = a.data ++ b.data := rfl

theorem noNL_append {a b : String} (ha : noNL a) (hb : noNL b) : noNL (a ++ b) := by
  simp only [noNL, string_data_append, List.mem_append]
  exact fun h => h.elim ha hb

theorem noNL_joinSep (sep : String) (hsep : noNL sep) :
    ∀ l : List String, (∀ s ∈ l, noNL s) → noNL (joinSep sep l)
  | [], _ => fun h => List.not_mem_nil _ h
  | [x], h => by simpa [joinSep] using h x (by simp)
  | x :: y :: xs, h => by
    rw [joinSep]
    exact noNL_append (noNL_append (h x (by simp)) hsep)
      (noNL_joinSep sep hsep (y :: xs) (fun s hs => h s (List.mem_cons_of_mem _ hs)))

theorem noNL_concatAll : ∀ l : List String, (∀ s ∈ l, noNL s) → noNL (concatAll l)
  | [], _ => by decide
  | x :: xs, h => by
    rw [concatAll]
    exact noNL_append (h x (by simp)) (noNL_concatAll xs (fun s hs => h s (List.mem_cons_of_mem _ hs)))

theorem hexDigitChar_ne_nl (n : Nat) : hexDigitChar n ≠ '\n' := by
  have h : n % 16 < 16 := Nat.mod_lt _ (by norm_num)
  rw [hexDigitChar]
  set k := n % 16 with hk
  interval_cases k <;> decide

theorem noNL_hex4 (n : Nat) : noNL (hex4 n) := by
  intro h
  have h2 : '\n' ∈ [hexDigitChar (n / 4096), hexDigitChar (n / 256),
      hexDigitChar (n / 16), hexDigitChar n] := h
  simp only [List.mem_cons, List.not_mem_nil, or_false] at h2
  rcases h2 with h2 | h2 | h2 | h2 <;> exact hexDigitChar_ne_nl _ h2.symm

theorem noNL_jsonEscChar (c : Char) : noNL (jsonEscChar c) := by
  unfold jsonEscChar
  split
  · decide
  split
  · decide
  split
  · decide
  split
  · decide
  split
  · decide
  split
  · decide
  split
  · decide
  split
  · exact noNL_append (by decide) (noNL_hex4 _)
  split
  · rename_i h32 h128
    intro hm
    have hm2 : '\n' = c := List.mem_singleton.mp hm
    exact h32 (hm2 ▸ (by decide : ('\n' : Char).toNat < 32))
  split
  · exact noNL_append (by decide) (noNL_hex4 _)
  · exact noNL_append (noNL_append (noNL_append (by decide) (noNL_hex4 _)) (by decide)) (noNL_hex4 _)

theorem noNL_jsonQuote (s : String) : noNL (jsonQuote s) := by
  refine noNL_append (noNL_append (by decide) ?_) (by decide)
  refine noNL_concatAll _ (fun t ht => ?_)
  rcases List.mem_map.mp ht with ⟨c, _, rfl⟩
  exact noNL_jsonEscChar c

theorem digitChar_ne_nl (n : Nat) : Nat.digitChar n ≠ '\n' := by
  rcases Nat.lt_or_ge n 16 with h16 | h16
  · interval_cases n <;> decide
  · have h0 : n ≠ 0 := by omega
    have h1 : n ≠ 1 := by omega
    have h2 : n ≠ 2 := by omega
    have h3 : n ≠ 3 := by omega
    have h4 : n ≠ 4 := by omega
    have h5 : n ≠ 5 := by omega
    have h6 : n ≠ 6 := by omega
    have h7 : n ≠ 7 := by omega
    have h8 : n ≠ 8 := by omega
    have h9 : n ≠ 9 := by omega
    have h10 : n ≠ 10 := by omega
    have h11 : n ≠ 11 := by omega
    have h12 : n ≠ 12 := by omega
    have h13 : n ≠ 13 := by omega
    have h14 : n ≠ 14 := by omega
    have h15 : n ≠ 15 := by omega
    simp only [Nat.digitChar, if_neg h0, if_neg h1, if_neg h2, if_neg h3, if_neg h4,
      if_neg h5, if_neg h6, if_neg h7, if_neg h8, if_neg h9, if_neg h10, if_neg h11,
      if_neg h12, if_neg h13, if_neg h14, if_neg h15]
    decide

theorem toDigitsCore_ne_nl (b : Nat) :
    ∀ (fuel n : Nat) (ds : List Char), (∀ c ∈ ds, c ≠ '\n') →
      ∀ c ∈ Nat.toDigitsCore b fuel n ds, c ≠ '\n' := by
  intro fuel
  induction fuel with
  | zero =>
    intro n ds h c hc
    rw [Nat.toDigitsCore] at hc
    exact h c hc
  | succ f ih =>
    intro n ds h c hc
    have hd : ∀ c2 ∈ (n % b).digitChar :: ds, c2 ≠ '\n' := by
      intro c2 hc2
      rcases List.mem_cons.mp hc2 with he | hm
      · exact he ▸ digitChar_ne_nl _
      · exact h c2 hm
    rw [Nat.toDigitsCore] at hc
    by_cases hz : n / b = 0
    · rw [if_pos hz] at hc
      exact hd c hc
    · rw [if_neg hz] at hc
      exact ih (n / b) _ hd c hc

theorem noNL_natRepr (n : Nat) : noNL (Nat.repr n) := by
  intro h
  exact toDigitsCore_ne_nl 10 (n + 1) n []
    (fun c hc => absurd hc (List.not_mem_nil _)) '\n' h rfl

theorem noNL_intToString (n : Int) : noNL (toString n) := by
  cases n with
  | ofNat m => exact noNL_natRepr m
  | negSucc m => exact noNL_append (by decide) (noNL_natRepr (m + 1))

mutual

theorem noNL_jsonDumps : ∀ j : Json, noNL (jsonDumps j)
  | Json.null => by intro h; exact absurd h (by decide)
  | Json.bool true => by intro h; exact absurd h (by decide)
  | Json.bool false => by intro h; exact absurd h (by decide)
  | Json.num n => noNL_intToString n
  | Json.str s => noNL_jsonQuote s
  | Json.arr xs => by
    rw [jsonDumps]
    exact noNL_append (noNL_append (by decide)
      (noNL_joinSep ", " (by decide) _ (noNL_dumpsItems xs))) (by decide)
  | Json.obj fs => by
    rw [jsonDumps]
    exact noNL_append (noNL_append (by decide)
      (noNL_joinSep ", " (by decide) _ (noNL_dumpsFields fs))) (by decide)

theorem noNL_dumpsItems : ∀ xs : List Json, ∀ s ∈ dumpsItems xs, noNL s
  | [], _, hs => absurd hs (by simp [dumpsItems])
  | x :: xs, s, hs => by
    rw [dumpsItems] at hs
    rcases List.mem_cons.mp hs with he | hm
    · subst he
      exact noNL_jsonDumps x
    · exact noNL_dumpsItems xs s hm

theorem noNL_dumpsFields : ∀ fs : List (String × Json), ∀ s ∈ dumpsFields fs, noNL s
  | [], _, hs => absurd hs (by simp [dumpsFields])
  | (k, v) :: fs, s, hs => by
    rw [dumpsFields] at hs
    rcases List.mem_cons.mp hs with he | hm
    · subst he
      exact noNL_append (noNL_append (noNL_jsonQuote k) (by decide)) (noNL_jsonDumps v)
    · exact noNL_dumpsFields fs s hm

end

/-- A fresh read against a stream whose first chunk starts with a
complete, newline-terminated JSON line returns exactly that line — the
rest of the chunk is discarded with the local buffer, and no request id is
consulted. -/
theorem readRespAux_first_line (line t : List Char) (rest : List ReadEv)
    (hnl : '\n' ∉ line) (hst : pyStrip line = line) (hne : line ≠ [])
    (hjs : (parseJson line).isSome) :
    readRespAux (ReadEv.chunk (line ++ '\n' :: t) :: rest) [] = (line, rest) := by
  cases line with
  | nil => exact absurd rfl hne
  | cons c cs =>
    rw [List.cons_append, readRespAux]
    simp only [List.nil_append, ← List.cons_append]
    rw [splitNL_append_nl _ _ hnl]
    rw [firstJsonLine, hst]
    rw [if_pos ⟨hne, hjs⟩]

/-- A fresh read whose first chunk is a newline-free, unparseable text
longer than the 10000-character cap returns the stripped accumulation as
the response text. -/
theorem readRespAux_overflow (s : List Char) (rest : List ReadEv)
    (hnl : '\n' ∉ s) (hfail : ¬ (pyStrip s ≠ [] ∧ (parseJson (pyStrip s)).isSome = true))
    (hlen : s.length > 10000) (hne : s ≠ []) :
    readRespAux (ReadEv.chunk s :: rest) [] = (pyStrip s, rest) := by
  cases s with
  | nil => exact absurd rfl hne
  | cons c cs =>
    rw [readRespAux]
    simp only [List.nil_append]
    rw [splitNL_no_nl _ hnl]
    rw [firstJsonLine]
    rw [if_neg hfail]
    simp only [firstJsonLine, List.getLastD, List.getLast_singleton]
    rw [if_pos hlen]

/-! ## Claim theorems -/

/-- C5: `call_tool` unwraps responses in this exact order: an `error`
field yields a failure string embedding the error payload; a mapping
result is probed for `content` first, else `text`, else stringified, and
a sequence value is joined from each element's `text` field (or its
string form) with newline separators; any other result is stringified.
The three concrete examples of the claim evaluate as stated. -/
theorem claim_c5_content_unwrapping :
    (callToolParse ("\x7b\"result\": \x7b\"content\": [\x7b\"text\": \"a\"\x7d, \x7b\"text\": \"b\"\x7d]\x7d\x7d".data) =
      some "a\nb") ∧
    (callToolParse ("\x7b\"result\": \"plain\"\x7d".data) = some "plain") ∧
    (∃ pre post, callToolParse ("\x7b\"error\": \"boom\"\x7d".data) =
      some (pre ++ "boom" ++ post)) ∧
    (∀ fields e, dget fields "error" = some e →
      unwrapObj fields = "❌ Server error: " ++ pyStr e) ∧
    (∀ fields rf, dget fields "error" = none →
      dget fields "result" = some (Json.obj rf) →
      unwrapObj fields = contentRender (contentOf rf)) ∧
    (∀ fields r, dget fields "error" = none → dget fields "result" = some r →
      (∀ rf, r ≠ Json.obj rf) → unwrapObj fields = pyStr r) ∧
    (∀ rf c, dget rf "content" = some c → contentOf rf = c) ∧
    (∀ rf t, dget rf "content" = none → dget rf "text" = some t → contentOf rf = t) ∧
    (∀ rf, dget rf "content" = none → dget rf "text" = none →
      contentOf rf = Json.str (pyStr (Json.obj rf))) ∧
    (∀ items, contentRender (Json.arr items) = joinSep "\n" (items.map unwrapItem)) := by
  refine ⟨rfl, rfl, ⟨"❌ Server error: ", "", rfl⟩, ?_, ?_, ?_, ?_, ?_, ?_, fun items => rfl⟩
  · intro fields e he
    rw [unwrapObj, he]
  · intro fields rf he hr
    rw [unwrapObj, he, hr]
    rfl
  · intro fields r he hr hro
    rw [unwrapObj, he, hr]
    cases r with
    | obj rf => exact absurd rfl (hro rf)
    | null => rfl
    | bool b => rfl
    | num n => rfl
    | str s => rfl
    | arr xs => rfl
  · intro rf c hc
    rw [contentOf, hc]
  · intro rf t hc ht
    rw [contentOf, hc, ht]
  · intro rf hc ht
    rw [contentOf, hc, ht]

/-- Witness for C5: the error-precedence rule applied at a concrete
response object. -/
theorem claim_c5_witness :
    unwrapObj [("error", Json.str "boom2")] = "❌ Server error: " ++ pyStr (Json.str "boom2") :=
  claim_c5_content_unwrapping.2.2.2.1 [("error", Json.str "boom2")] (Json.str "boom2") rfl

/-- C6: for any sequence of N requests created on one session, the issued
request ids are strictly increasing integers starting at 1 with no
repeats, and each request is serialized as a single-line JSON object
terminated by a newline. -/
theorem claim_c6_id_monotonicity_and_framing :
    (∀ calls : List (String × Option Json),
      issuedIds ⟨0⟩ calls = List.range' 1 calls.length ∧
      (issuedIds ⟨0⟩ calls).Pairwise (· < ·) ∧
      (issuedIds ⟨0⟩ calls).Nodup) ∧
    (∀ (st : ClientState) (m : String) (p : Option Json),
      (createRequest st m p).2 =
        jsonDumps (requestJson (st.request_id + 1) m (p.getD (Json.obj []))) ++ "\n" ∧
      noNL (jsonDumps (requestJson (st.request_id + 1) m (p.getD (Json.obj []))))) := by
  constructor
  · intro calls
    have h := issuedIds_eq_range' calls 0
    refine ⟨h, ?_, ?_⟩
    · rw [h]
      exact List.pairwise_lt_range' 1 calls.length
    · rw [h]
      exact List.nodup_range' 1 calls.length
  · intro st m p
    exact ⟨rfl, noNL_jsonDumps _⟩

/-- C8: a `call_tool` that times out returns a caller-visible timeout
string (not a raised exception); a child-process death detected during
the call is surfaced as a caller-visible string distinct from the timeout
indication; every failure mode returns a string. -/
theorem claim_c8_failure_strings (tstr emsg : String) :
    callToolResult tstr emsg CallOutcome.timeout = some (timeoutMsg tstr) ∧
    callToolResult tstr emsg (CallOutcome.exn true) =
      some "❌ Server process died unexpectedly" ∧
    ("❌ Server process died unexpectedly" : String) ≠ timeoutMsg tstr ∧
    callToolResult tstr emsg (CallOutcome.exn false) =
      some ("❌ Error calling tool: " ++ emsg) := by
  refine ⟨rfl, rfl, ?_, rfl⟩
  intro h
  have h2 := congrArg String.data h
  have hL : ("❌ Server process died unexpectedly" : String).data =
      '❌' :: ' ' :: 'S' :: "erver process died unexpectedly".data := rfl
  have hR : (timeoutMsg tstr).data =
      '❌' :: ' ' :: 'T' ::
        ("imeout: Server didn\x27t respond within " ++ tstr ++ " seconds").data := rfl
  rw [hL, hR] at h2
  simp only [List.cons.injEq] at h2
  exact absurd h2.2.2.1 (by decide)

/-- C9: cleanup is idempotent — the second of two consecutive `cleanup`
calls performs no action, and after any `cleanup` call the manager is in
the `Terminated` state (process handle, client, event loop cleared and
tool catalog empty). -/
theorem claim_c9_cleanup_idempotent (m : Manager) :
    terminatedState (cleanupRun m).1 ∧
    (cleanupRun (cleanupRun m).1).2 = [] ∧
    (cleanupRun (cleanupRun m).1).1 = (cleanupRun m).1 :=
  ⟨⟨rfl, rfl, rfl, rfl⟩, rfl, rfl⟩

/-- C10: `list_tools` returns an independent copy of the cached tool
catalog — the copy holds the same contents, and any sequence of in-place
mutations through the returned dict leaves the manager's cached catalog
(and hence the `call_tool` availability check) unchanged. -/
theorem claim_c10_list_tools_copy (s : ToolStore) (mgr : Nat) (h : mgr < s.next)
    (fs : List (List (String × Json) → List (String × Json))) :
    (listToolsRun s mgr).2.mem (listToolsRun s mgr).1 = s.mem mgr ∧
    (mutateSeq (listToolsRun s mgr).2 (listToolsRun s mgr).1 fs).mem mgr = s.mem mgr ∧
    (∀ name, toolAvailable (mutateSeq (listToolsRun s mgr).2 (listToolsRun s mgr).1 fs) mgr name =
      toolAvailable s mgr name) := by
  have hne : mgr ≠ s.next := Nat.ne_of_lt h
  have hmem : (listToolsRun s mgr).2.mem mgr = s.mem mgr := by
    simp [listToolsRun, hne]
  have hkey : (mutateSeq (listToolsRun s mgr).2 (listToolsRun s mgr).1 fs).mem mgr = s.mem mgr := by
    rw [mutateSeq_mem_ne (listToolsRun s mgr).1 mgr hne fs]
    exact hmem
  refine ⟨by simp [listToolsRun], hkey, fun name => ?_⟩
  rw [toolAvailable, hkey, toolAvailable]

/-- Witness for C10: a concrete store with the catalog at address 0 and
one mutation clearing the copy; the cached catalog is unchanged. -/
theorem claim_c10_witness :
    (mutateSeq (listToolsRun ⟨fun _ => [("ping", Json.null)], 1⟩ 0).2
      (listToolsRun ⟨fun _ => [("ping", Json.null)], 1⟩ 0).1
      [fun _ => []]).mem 0 = (⟨fun _ => [("ping", Json.null)], 1⟩ : ToolStore).mem 0 :=
  (claim_c10_list_tools_copy ⟨fun _ => [("ping", Json.null)], 1⟩ 0 (by decide)
    [fun _ => []]).2.1

/-- C1 counterexample: the response for request id 1 arrives after the
caller for id 1 timed out (its bytes are the first pending read event);
the read performed for request id 2 returns exactly that stale id-1
response, and `call_tool` hands its unwrapped result `"stale"` to the
caller of request 2.  The stale response is returned, not discarded. -/
theorem claim_c1_counterexample :
    readResp
      [ReadEv.chunk ("\x7b\"jsonrpc\": \"2.0\", \"id\": 1, \"result\": \"stale\"\x7d\n".data),
       ReadEv.chunk ("\x7b\"jsonrpc\": \"2.0\", \"id\": 2, \"result\": \"fresh\"\x7d\n".data)] =
      "\x7b\"jsonrpc\": \"2.0\", \"id\": 1, \"result\": \"stale\"\x7d".data ∧
    parseJson "\x7b\"jsonrpc\": \"2.0\", \"id\": 1, \"result\": \"stale\"\x7d".data =
      some (Json.obj [("jsonrpc", Json.str "2.0"), ("id", Json.num 1),
        ("result", Json.str "stale")]) ∧
    callToolResult "60.0" "" (CallOutcome.response (readResp
      [ReadEv.chunk ("\x7b\"jsonrpc\": \"2.0\", \"id\": 1, \"result\": \"stale\"\x7d\n".data),
       ReadEv.chunk ("\x7b\"jsonrpc\": \"2.0\", \"id\": 2, \"result\": \"fresh\"\x7d\n".data)])) =
      some "stale" :=
  ⟨rfl, rfl, rfl⟩

/-- C1 amended: the response reader performs no request-id correlation —
a fresh read returns the first complete JSON line pending on the stream,
whatever its id; a stale response left on the stream after a timeout is
therefore returned as the result of the next request rather than
discarded. -/
theorem claim_c1_amended (line t : List Char) (rest : List ReadEv)
    (hnl : '\n' ∉ line) (hst : pyStrip line = line) (hne : line ≠ [])
    (hjs : (parseJson line).isSome) :
    readRespAux (ReadEv.chunk (line ++ '\n' :: t) :: rest) [] = (line, rest) :=
  readRespAux_first_line line t rest hnl hst hne hjs

/-- Witness for C1: the amended statement at a concrete pending line. -/
theorem claim_c1_witness :
    readRespAux [ReadEv.chunk ("\x7b\"id\": 7\x7d".data ++ '\n' :: "\x7b\"id\": 8\x7d\n".data)] [] =
      ("\x7b\"id\": 7\x7d".data, []) :=
  claim_c1_amended _ _ _ (by decide) rfl (by decide) rfl

/-- C2 counterexample: two complete messages delivered in one chunk yield
the sequence `[first, ""]` over two reads — the second message is lost —
whereas the same bytes delivered as two chunks consumed by separate reads
yield `[first, second]`.  The yielded sequence depends on the chunk
boundaries, and a message delivered in the same chunk as an earlier
complete message is lost. -/
theorem claim_c2_counterexample :
    drainCalls 2 [ReadEv.chunk ("\x7b\"a\": 1\x7d\n\x7b\"b\": 2\x7d\n".data)] =
      ["\x7b\"a\": 1\x7d".data, []] ∧
    drainCalls 2 [ReadEv.chunk ("\x7b\"a\": 1\x7d\n".data),
        ReadEv.chunk ("\x7b\"b\": 2\x7d\n".data)] =
      ["\x7b\"a\": 1\x7d".data, "\x7b\"b\": 2\x7d".data] ∧
    ("\x7b\"b\": 2\x7d".data : List Char) ≠ [] :=
  ⟨rfl, rfl, by decide⟩

/-- C2 amended: each read returns only the first complete JSON line found
in its accumulated buffer and discards the rest of the buffer, so two
complete messages arriving in one chunk yield only the first (the second
is lost), while the same two messages arriving in separate chunks are
both yielded — the message sequence depends on chunk boundaries. -/
theorem claim_c2_amended (l1 l2 : List Char)
    (h1nl : '\n' ∉ l1) (h1st : pyStrip l1 = l1) (h1ne : l1 ≠ [])
    (h1js : (parseJson l1).isSome)
    (h2nl : '\n' ∉ l2) (h2st : pyStrip l2 = l2) (h2ne : l2 ≠ [])
    (h2js : (parseJson l2).isSome) :
    drainCalls 2 [ReadEv.chunk (l1 ++ '\n' :: (l2 ++ ['\n']))] = [l1, []] ∧
    drainCalls 2 [ReadEv.chunk (l1 ++ ['\n']), ReadEv.chunk (l2 ++ ['\n'])] = [l1, l2] := by
  constructor
  · rw [drainCalls, readRespAux_first_line l1 (l2 ++ ['\n']) [] h1nl h1st h1ne h1js]
    rfl
  · rw [drainCalls,
      readRespAux_first_line l1 [] [ReadEv.chunk (l2 ++ ['\n'])] h1nl h1st h1ne h1js]
    rw [drainCalls, readRespAux_first_line l2 [] [] h2nl h2st h2ne h2js]
    rfl

/-- Witness for C2: the amended statement at two concrete messages. -/
theorem claim_c2_witness :
    drainCalls 2
      [ReadEv.chunk ("\x7b\"c\": 3\x7d".data ++ '\n' :: ("\x7b\"d\": 4\x7d".data ++ ['\n']))] =
      ["\x7b\"c\": 3\x7d".data, []] ∧
    drainCalls 2 [ReadEv.chunk ("\x7b\"c\": 3\x7d".data ++ ['\n']),
        ReadEv.chunk ("\x7b\"d\": 4\x7d".data ++ ['\n'])] =
      ["\x7b\"c\": 3\x7d".data, "\x7b\"d\": 4\x7d".data] :=
  claim_c2_amended _ _ (by decide) rfl (by decide) rfl (by decide) rfl (by decide) rfl

/-- C3 counterexample: with the catalog discovery step failing (falsy
tool mapping) and every earlier step succeeding, `start` returns `True` —
the failed discovery does not abort `start`, and the manager is not in
the `Terminated` state. -/
theorem claim_c3_counterexample :
    (startRun initialManager ⟨true, true, true, []⟩).1 = true ∧
    ¬ terminatedState (startRun initialManager ⟨true, true, true, []⟩).2.1 :=
  ⟨rfl, fun hts => Bool.noConfusion hts.2.2.1⟩

/-- C3 amended: `start` returns failure when the spawn raises, when the
child dies within the grace window, or when the handshake fails — but in
every case (success or failure) the event-loop thread is left running, so
the manager never ends in the `Terminated` state; a failed catalog
discovery does not abort `start`: it returns success and leaves the
catalog untouched. -/
theorem claim_c3_amended (m : Manager) :
    (∀ g i ts, startRun m ⟨false, g, i, ts⟩ =
      (false, { m with loopRunning := true }, [])) ∧
    (∀ i ts, startRun m ⟨true, false, i, ts⟩ =
      (false, { m with loopRunning := true, mcp_process := some false }, [SAction.spawn])) ∧
    (∀ ts, startRun m ⟨true, true, false, ts⟩ =
      (false, { m with loopRunning := true, mcp_process := some true, mcp_client := true },
        [SAction.spawn])) ∧
    (startRun m ⟨true, true, true, []⟩ =
      (true, { m with loopRunning := true, mcp_process := some true, mcp_client := true },
        [SAction.spawn])) ∧
    (∀ env, (startRun m env).2.1.loopRunning = true) := by
  refine ⟨fun g i ts => rfl, fun i ts => rfl, fun ts => rfl, rfl, ?_⟩
  intro env
  rcases env with ⟨s, g, i, d⟩
  cases s <;> cases g <;> cases i <;> simp [startRun]
  all_goals (split <;> rfl)

/-- C4 counterexample: the handshake fails after a successful spawn;
`start` returns failure, the spawned child is still running and
referenced by the manager, and no termination was attempted. -/
theorem claim_c4_counterexample :
    (startRun initialManager ⟨true, true, false, []⟩).1 = false ∧
    (startRun initialManager ⟨true, true, false, []⟩).2.1.mcp_process = some true ∧
    SAction.terminate ∉ (startRun initialManager ⟨true, true, false, []⟩).2.2 :=
  ⟨rfl, rfl, by decide⟩

/-- C4 amended: no execution of `start` — failing or not — ever attempts
termination of the spawned child; in particular after a handshake failure
`start` returns failure while the child remains running (an orphaned
process). -/
theorem claim_c4_amended (m : Manager) (env : StartEnv) :
    SAction.terminate ∉ (startRun m env).2.2 ∧
    (∀ ts, (startRun m ⟨true, true, false, ts⟩).1 = false ∧
      (startRun m ⟨true, true, false, ts⟩).2.1.mcp_process = some true) := by
  constructor
  · rcases env with ⟨s, g, i, d⟩
    cases s <;> cases g <;> cases i <;> simp [startRun]
    all_goals (split <;> simp)
  · intro ts
    exact ⟨rfl, rfl⟩

/-- A fresh read of a single oversized, newline-free, strip-fixed,
unparseable chunk returns the chunk itself as the response text. -/
theorem readResp_overflow (s : List Char) (hst : pyStrip s = s) (hnl : '\n' ∉ s)
    (hfail : ¬ (pyStrip s ≠ [] ∧ (parseJson (pyStrip s)).isSome = true))
    (hlen : s.length > 10000) (hne : s ≠ []) :
    readResp [ReadEv.chunk s] = s := by
  rw [readResp, readRespAux_overflow s [] hnl hfail hlen hne, hst]

/-- The response-text handling of `call_tool` on a strip-fixed text that
fails to parse as JSON: the raw text itself is returned to the caller. -/
theorem callToolParse_unparseable (t : List Char) (hst : pyStrip t = t)
    (hpj : parseJson t = none) :
    callToolParse t = some (String.mk t) := by
  rw [callToolParse, hst, hpj]

/-- C7 counterexample: a single chunk of 10001 `x` characters — more than
the 10000-character cap of un-parseable input — makes the reader return
the accumulated text itself, and `call_tool`'s parse fallback then hands
that text to the caller as if it were a successful result; no distinct
overflow failure exists. -/
theorem claim_c7_counterexample :
    readResp [ReadEv.chunk (List.replicate 10001 'x')] = List.replicate 10001 'x' ∧
    callToolParse (List.replicate 10001 'x') =
      some (String.mk (List.replicate 10001 'x')) := by
  have hnl : '\n' ∉ List.replicate 10001 'x' :=
    fun h => absurd (List.eq_of_mem_replicate h) (by decide)
  have hps : pyStrip (List.replicate 10001 'x') = List.replicate 10001 'x' :=
    pyStrip_replicate_x _
  have hpj : parseJson (List.replicate 10001 'x') = none :=
    parseJson_replicate_x _ (by norm_num)
  have hfail : ¬ (pyStrip (List.replicate 10001 'x') ≠ [] ∧
      (parseJson (pyStrip (List.replicate 10001 'x'))).isSome = true) := by
    rw [hps, hpj]
    exact fun h => Bool.noConfusion h.2
  have hlen : (List.replicate 10001 'x').length > 10000 := by
    rw [List.length_replicate]
    norm_num
  exact ⟨readResp_overflow _ hps hnl hfail hlen
      (List.ne_nil_of_length_pos (by rw [List.length_replicate]; norm_num)),
    callToolParse_unparseable _ hps hpj⟩

/-- C7 amended: when the accumulated buffer exceeds the 10000-character
cap without a successful parse, the reader stops and returns the stripped
accumulation itself on the normal return channel — no `FramingOverflow`
(or any other) error value is produced. -/
theorem claim_c7_amended (s : List Char) (rest : List ReadEv)
    (hnl : '\n' ∉ s)
    (hfail : ¬ (pyStrip s ≠ [] ∧ (parseJson (pyStrip s)).isSome = true))
    (hlen : s.length > 10000) (hne : s ≠ []) :
    readRespAux (ReadEv.chunk s :: rest) [] = (pyStrip s, rest) :=
  readRespAux_overflow s rest hnl hfail hlen hne

/-- Witness for C7: the amended statement at the concrete oversized
input. -/
theorem claim_c7_witness :
    readRespAux [ReadEv.chunk (List.replicate 10001 'x')] [] =
      (pyStrip (List.replicate 10001 'x'), []) :=
  claim_c7_amended (List.replicate 10001 'x') []
    (fun h => absurd (List.eq_of_mem_replicate h) (by decide))
    (by
      rw [pyStrip_replicate_x, parseJson_replicate_x _ (by norm_num)]
      exact fun h => Bool.noConfusion h.2)
    (by rw [List.length_replicate]; norm_num)
    (List.ne_nil_of_length_pos (by rw [List.length_replicate]; norm_num))
